import Mathlib

/-!
Shallow embedding of the button-buddy-compare application's data-access and
UI-workflow logic, together with proofs of its specified properties.

The application is TypeScript glue over a remote store (supabase).  We embed:

* the completed-services data-access functions `getCompletedServices` and
  `addCompletedService` (file `completedServices`, here from
  `src/unnamed/part_000`);
* the user/role management component `UserManagement`
  (`src/unnamed/part_001`): the client-side left join of profiles and role
  records, the `hasAdmin` computation, the bootstrap action
  `promoteCurrentUserToAdmin`, the `promoteToAdmin` action and the
  rendering conditions of the bootstrap card and the demote button;
* the `MechanicForm` dialog (`src/components/mechanics/MechanicForm.tsx`):
  validation of the required `name` field and the submit handler
  `onSubmitForm`.

The remote store is modelled as explicit state (lists of rows) passed to the
functions; fallible backend calls take a Boolean failure flag (the code only
branches on whether the call returned an error, never on the error's
content).  `crypto.randomUUID()` is modelled as an oracle argument
(`freshId`): its collision-freeness is a hypothesis where a claim needs it.
All numeric amounts travel through `Number(...)` unchanged in the code and
are modelled as `Int`.
-/

/-! ## Completed services (src/unnamed/part_000) -/

/-- A row of the remote `completed_services` table, snake_case fields as
stored.  `mechanic_id` is nullable: the mapping code guards it with
`item.mechanic_id || ""`; the other columns are used unguarded. -/
structure CompletedServiceRow where
  id : String
  mechanic_id : Option String
  service_ids : List String
  total_amount : Int
  received_amount : Int
  completion_date : String
  created_at : String
  created_by : Option String
deriving Repr, DecidableEq

/-- The camelCase local view model `CompletedService`. -/
structure CompletedService where
  id : String
  mechanicId : String
  serviceIds : List String
  totalAmount : Int
  receivedAmount : Int
  completionDate : String
  createdAt : String
deriving Repr, DecidableEq

/-- The field-by-field mapping applied to each fetched row
(`data.map item => ...` in `getCompletedServices`).
`item.mechanic_id || ""` yields `""` exactly when `mechanic_id` is
null/absent (and when it is the empty string, where `getD` agrees). -/
def mapCompletedServiceRow (item : CompletedServiceRow) : CompletedService :=
  { id := item.id
    mechanicId := item.mechanic_id.getD ""
    serviceIds := item.service_ids
    totalAmount := item.total_amount
    receivedAmount := item.received_amount
    completionDate := item.completion_date
    createdAt := item.created_at }

/-- The remote query
`from('completed_services').select('*').order('created_at', descending)`:
all rows of the table, sorted by `created_at` descending (a stable sort of
the table; the comparator puts `a` before `b` when `b.created_at ≤
a.created_at`). -/
def orderByCreatedAtDesc (table : List CompletedServiceRow) :
    List CompletedServiceRow :=
  table.mergeSort fun a b => decide (b.created_at ≤ a.created_at)

/-- `getCompletedServices`: runs the ordered select; if the backend reports
an error (`fail = true`) it logs and returns `[]`, otherwise it maps every
returned row to the view model. -/
def getCompletedServices (table : List CompletedServiceRow) (fail : Bool) :
    List CompletedService :=
  if fail then []
  else (orderByCreatedAtDesc table).map mapCompletedServiceRow

/-- The input of `addCompletedService`: a `CompletedService` without `id`
(`Omit<CompletedService, "id">`). -/
structure NewCompletedService where
  mechanicId : String
  serviceIds : List String
  totalAmount : Int
  receivedAmount : Int
  completionDate : String
  createdAt : String
deriving Repr, DecidableEq

/-- The row `addCompletedService` inserts: the snake_case image of the
input, `created_by` set to the current authenticated user's id
(`user?.id`, hence an `Option`), and the store-assigned primary key. -/
def insertRowFor (completedService : NewCompletedService)
    (currentUserId : Option String) (assignedId : String) :
    CompletedServiceRow :=
  { id := assignedId
    mechanic_id := some completedService.mechanicId
    service_ids := completedService.serviceIds
    total_amount := completedService.totalAmount
    received_amount := completedService.receivedAmount
    completion_date := completedService.completionDate
    created_at := completedService.createdAt
    created_by := currentUserId }

/-- `addCompletedService`: reads the current user, inserts the mapped row;
on insert error logs and returns `[]` (store unchanged), on success returns
`getCompletedServices()` over the grown table.  Result: the table after the
call and the returned list. -/
def addCompletedService (table : List CompletedServiceRow)
    (currentUserId : Option String) (completedService : NewCompletedService)
    (assignedId : String) (insertFail fetchFail : Bool) :
    List CompletedServiceRow × List CompletedService :=
  if insertFail then (table, [])
  else
    let table2 := table ++ [insertRowFor completedService currentUserId assignedId]
    (table2, getCompletedServices table2 fetchFail)

/-! ## User/role management (src/unnamed/part_001) -/

/-- The role enum: the remote `role` column is typed `'admin' | 'user'`. -/
inductive Role where
  | admin
  | user
deriving Repr, DecidableEq

/-- A row of the remote `profiles` table (the selected columns). -/
structure Profile where
  id : String
  email : String
  full_name : Option String
  created_at : String
deriving Repr, DecidableEq

/-- A row of the remote `user_roles` table (the selected columns). -/
structure UserRoleRec where
  user_id : String
  role : Role
deriving Repr, DecidableEq

/-- The joined view model of `UserManagement`. -/
structure UserWithRole where
  id : String
  email : String
  full_name : Option String
  role : Role
  created_at : String
deriving Repr, DecidableEq

/-- One step of the in-memory left join in `fetchUsers`: look up the first
role record with `role.user_id === profile.id`; the joined role is
`userRole?.role || 'user'` (both role literals are truthy strings, so the
default fires exactly when no record was found). -/
def joinProfile (roles : List UserRoleRec) (profile : Profile) : UserWithRole :=
  let userRole := roles.find? fun role => decide (role.user_id = profile.id)
  { id := profile.id
    email := profile.email
    full_name := profile.full_name
    role := (userRole.map UserRoleRec.role).getD Role.user
    created_at := profile.created_at }

/-- `formattedUsers` in `fetchUsers`: the profile list mapped through the
left join. -/
def formattedUsers (profiles : List Profile) (roles : List UserRoleRec) :
    List UserWithRole :=
  profiles.map (joinProfile roles)

/-- The component state `fetchUsers` produces from a successful pair of
selects: the joined list and `hasAdmin`
(`formattedUsers.some(user => user.role === 'admin')`). -/
structure FetchUsersResult where
  users : List UserWithRole
  hasAdmin : Bool
deriving Repr, DecidableEq

/-- `fetchUsers` (success path): join, then compute whether any admin
exists. -/
def fetchUsers (profiles : List Profile) (roles : List UserRoleRec) :
    FetchUsersResult :=
  let formatted := formattedUsers profiles roles
  { users := formatted
    hasAdmin := formatted.any fun u => decide (u.role = Role.admin) }

/-- The render condition of the bootstrap ("Tornar-me Administrador") card:
the JSX guard is `!hasAdmin && <Card .../>`. -/
def showBootstrapCard (hasAdmin : Bool) : Bool :=
  !hasAdmin

/-- The render condition of the demote ("Rebaixar para Usuário") button for
a listed user: the JSX renders it on the non-`'user'` branch of
`user.role === 'user' ? ... : (user.id !== currentUser?.id && ...)`, so it
appears iff the user's role is `admin` and their id differs from
`currentUser?.id` (`none` when nobody is authenticated). -/
def showDemoteButton (currentUserId : Option String) (u : UserWithRole) :
    Bool :=
  decide (u.role = Role.admin) && !(decide (some u.id = currentUserId))

/-- Outcome of the bootstrap handler: the `user_roles` table after the call,
the toast flavour, and the `fetchUsers` reload (components state) when one
happened. -/
structure BootstrapOutcome where
  store : List UserRoleRec
  success : Bool
  refetched : Option FetchUsersResult
deriving Repr, DecidableEq

/-- `promoteCurrentUserToAdmin`: aborts when nobody is authenticated;
otherwise runs `select('*').eq('user_id', uid).single()` — which yields the
row when exactly one matches, the ignorable `PGRST116` error when none
does, and a thrown error when several do — then updates the matching rows
to `admin` when a row existed, inserts `{user_id, role: 'admin'}` when not,
and finally reloads via `fetchUsers()`.  Store mutations themselves are
modelled as succeeding. -/
def promoteCurrentUserToAdmin (profiles : List Profile)
    (store : List UserRoleRec) (currentUserId : Option String) :
    BootstrapOutcome :=
  match currentUserId with
  | none => { store := store, success := false, refetched := none }
  | some uid =>
    match store.filter fun r => decide (r.user_id = uid) with
    | [] =>
      let store2 := store ++ [{ user_id := uid, role := Role.admin }]
      { store := store2, success := true
        refetched := some (fetchUsers profiles store2) }
    | [_] =>
      let store2 := store.map fun r =>
        if r.user_id = uid then { r with role := Role.admin } else r
      { store := store2, success := true
        refetched := some (fetchUsers profiles store2) }
    | _ => { store := store, success := false, refetched := none }

/-- The spec's description of the bootstrap mutation, for comparison:
"updates an existing role record if present for that user, else inserts
one" (with role `admin`). -/
def upsertAdminSpec (store : List UserRoleRec) (uid : String) :
    List UserRoleRec :=
  if store.any fun r => decide (r.user_id = uid) then
    store.map fun r =>
      if r.user_id = uid then { r with role := Role.admin } else r
  else
    store ++ [{ user_id := uid, role := Role.admin }]

/-- `promoteToAdmin(userId)`: a bare
`update({role: 'admin'}).eq('user_id', userId)` — every matching row gets
role `admin`, nothing is inserted (no existence check). -/
def promoteToAdmin (store : List UserRoleRec) (userId : String) :
    List UserRoleRec :=
  store.map fun r =>
    if r.user_id = userId then { r with role := Role.admin } else r

/-! ## Mechanic form (src/components/mechanics/MechanicForm.tsx) -/

/-- The `Mechanic` view model; `specialization` and `phone` are optional in
TypeScript but the form registers them with `""` defaults, so they travel
as strings here. -/
structure Mechanic where
  id : String
  name : String
  specialization : String
  phone : String
deriving Repr, DecidableEq

/-- The blank `defaultValues` of the form. -/
def blankMechanic : Mechanic :=
  { id := "", name := "", specialization := "", phone := "" }

/-- `useForm`'s `defaultValues`: `mechanic || blank`. -/
def defaultMechanicValues (mechanic : Option Mechanic) : Mechanic :=
  mechanic.getD blankMechanic

/-- The client-side validation wired into `handleSubmit`: only `name` is
registered with `{ required: "Nome é obrigatório" }`; react-hook-form's
`required` rejects exactly the empty string for a text input.
`specialization` and `phone` carry no rules. -/
def validateMechanicValues (values : Mechanic) : Option String :=
  if values.name = "" then some "Nome é obrigatório" else none

/-- `onSubmitForm`: `isEditing = !!mechanic`; in edit mode the id of the
edited entity is kept, in create mode `crypto.randomUUID()` (modelled by
the oracle `freshId`) is assigned. -/
def onSubmitForm (mechanic : Option Mechanic) (freshId : String)
    (data : Mechanic) : Mechanic :=
  match mechanic with
  | some m => { data with id := m.id }
  | none => { data with id := freshId }

/-- Everything observable about one submit attempt: the argument the
caller-supplied `onSubmit` callback received (`none` when it was not
invoked), the `name` validation message on display, the form values after
the attempt, and whether the dialog is still open. -/
structure SubmitOutcome where
  submitted : Option Mechanic
  nameError : Option String
  formValues : Mechanic
  dialogOpen : Bool
deriving Repr, DecidableEq

/-- `handleSubmit(onSubmitForm)` on a form whose dialog is open: if
validation fails, the error is displayed and nothing else happens; if it
passes, `onSubmitForm` runs — callback, then `reset()` (back to
`defaultValues`), then `onOpenChange(false)`. -/
def handleSubmitForm (mechanic : Option Mechanic) (freshId : String)
    (values : Mechanic) : SubmitOutcome :=
  match validateMechanicValues values with
  | some msg =>
    { submitted := none, nameError := some msg
      formValues := values, dialogOpen := true }
  | none =>
    { submitted := some (onSubmitForm mechanic freshId values)
      nameError := none
      formValues := defaultMechanicValues mechanic
      dialogOpen := false }

/-! ## Properties of the completed-service access -/

/-- C9: a fetched row whose `mechanic_id` is null is mapped to `mechanicId
= ""` (the view model's `mechanicId` is a plain `String`, never null);
`service_ids`, `total_amount`, `received_amount`, `completion_date` and
`created_at` are carried over verbatim with no such defaulting. -/
theorem getCompletedServices_mechanicId_default (item : CompletedServiceRow) :
    (item.mechanic_id = none → (mapCompletedServiceRow item).mechanicId = "") ∧
    (mapCompletedServiceRow item).mechanicId = item.mechanic_id.getD "" ∧
    (mapCompletedServiceRow item).serviceIds = item.service_ids ∧
    (mapCompletedServiceRow item).totalAmount = item.total_amount ∧
    (mapCompletedServiceRow item).receivedAmount = item.received_amount ∧
    (mapCompletedServiceRow item).completionDate = item.completion_date ∧
    (mapCompletedServiceRow item).createdAt = item.created_at := by
  refine ⟨fun h => ?_, rfl, rfl, rfl, rfl, rfl, rfl⟩
  simp [mapCompletedServiceRow, h]

/-- Witness for `getCompletedServices_mechanicId_default` at a concrete
row with null `mechanic_id`. -/
theorem getCompletedServices_mechanicId_default_witness :
    (mapCompletedServiceRow
      { id := "s1", mechanic_id := none, service_ids := ["sv1"],
        total_amount := 10, received_amount := 5,
        completion_date := "2024-01-02", created_at := "2024-01-01",
        created_by := none }).mechanicId
      = "" :=
  (getCompletedServices_mechanicId_default
    { id := "s1", mechanic_id := none, service_ids := ["sv1"],
      total_amount := 10, received_amount := 5,
      completion_date := "2024-01-02", created_at := "2024-01-01",
      created_by := none }).1 rfl

/-- The comparator of `orderByCreatedAtDesc` is transitive and total, so
`mergeSort` yields a descending `created_at` sequence. -/
theorem orderByCreatedAtDesc_pairwise (table : List CompletedServiceRow) :
    List.Pairwise (fun a b : CompletedServiceRow =>
      b.created_at ≤ a.created_at) (orderByCreatedAtDesc table) := by
  have htrans : ∀ a b c : CompletedServiceRow,
      decide (b.created_at ≤ a.created_at) = true →
      decide (c.created_at ≤ b.created_at) = true →
      decide (c.created_at ≤ a.created_at) = true := by
    intro a b c hab hbc
    simp only [decide_eq_true_eq] at hab hbc ⊢
    exact le_trans hbc hab
  have htotal : ∀ a b : CompletedServiceRow,
      (decide (b.created_at ≤ a.created_at) ||
        decide (a.created_at ≤ b.created_at)) = true := by
    intro a b
    rcases le_total a.created_at b.created_at with h | h <;> simp [h]
  have hs := List.sorted_mergeSort htrans htotal table
  exact hs.imp fun h => of_decide_eq_true h

/-- C6: `getCompletedServices` under a failing backend call returns `[]`
(no error reaches the caller); under a successful one it returns exactly
the table's rows (as a permutation of the row-by-row mapping), sorted by
`createdAt` descending, every element the field-by-field image of a table
row. -/
theorem getCompletedServices_spec (table : List CompletedServiceRow) :
    getCompletedServices table true = [] ∧
    (getCompletedServices table false).Perm
      (table.map mapCompletedServiceRow) ∧
    List.Sorted (fun a b : CompletedService => b.createdAt ≤ a.createdAt)
      (getCompletedServices table false) ∧
    ∀ x ∈ getCompletedServices table false,
      ∃ item ∈ table, x = mapCompletedServiceRow item := by
  refine ⟨rfl, ?_, ?_, ?_⟩
  · have := (List.mergeSort_perm table
      (fun a b => decide (b.created_at ≤ a.created_at))).map
        mapCompletedServiceRow
    simpa [getCompletedServices, orderByCreatedAtDesc] using this
  · show List.Sorted _
      ((orderByCreatedAtDesc table).map mapCompletedServiceRow)
    rw [List.Sorted, List.pairwise_map]
    exact orderByCreatedAtDesc_pairwise table
  · intro x hx
    simp only [getCompletedServices, if_neg, Bool.false_eq_true,
      not_false_iff, List.mem_map, orderByCreatedAtDesc,
      List.mem_mergeSort] at hx
    obtain ⟨item, hitem, rfl⟩ := hx
    exact ⟨item, hitem, rfl⟩

/-- C5: `addCompletedService` attaches the current user's id as
`created_by`, appends the mapped row to the table, and on success returns
the re-fetched full list, which contains the new record with every field
round-tripped (camelCase → snake_case → camelCase) intact; on insert
failure it returns `[]` and leaves the table unchanged. -/
theorem addCompletedService_spec (table : List CompletedServiceRow)
    (currentUserId : Option String) (completedService : NewCompletedService)
    (assignedId : String) :
    (∀ fetchFail, addCompletedService table currentUserId completedService
      assignedId true fetchFail = (table, [])) ∧
    (addCompletedService table currentUserId completedService
      assignedId false false).1
      = table ++ [insertRowFor completedService currentUserId assignedId] ∧
    (insertRowFor completedService currentUserId assignedId).created_by
      = currentUserId ∧
    (addCompletedService table currentUserId completedService
      assignedId false false).2
      = getCompletedServices
          (table ++ [insertRowFor completedService currentUserId assignedId])
          false ∧
    mapCompletedServiceRow (insertRowFor completedService currentUserId assignedId)
      ∈ (addCompletedService table currentUserId completedService
          assignedId false false).2 ∧
    mapCompletedServiceRow (insertRowFor completedService currentUserId assignedId)
      = { id := assignedId
          mechanicId := completedService.mechanicId
          serviceIds := completedService.serviceIds
          totalAmount := completedService.totalAmount
          receivedAmount := completedService.receivedAmount
          completionDate := completedService.completionDate
          createdAt := completedService.createdAt } := by
  refine ⟨fun fetchFail => rfl, rfl, rfl, rfl, ?_, rfl⟩
  simp only [addCompletedService, if_neg, Bool.false_eq_true, not_false_iff,
    getCompletedServices, orderByCreatedAtDesc, List.mem_map,
    List.mem_mergeSort]
  exact ⟨insertRowFor completedService currentUserId assignedId,
    List.mem_append_right _ (List.mem_singleton_self _), rfl⟩

/-! ## Properties of the user/role management -/

/-- C3: a profile with no matching role record joins to role `user`; in
particular the spec's example: one profile `u1`, no roles — a single
`UserWithRole` with role `user`, and `hasAdmin = false`. -/
theorem fetchUsers_join_default (profiles : List Profile)
    (roles : List UserRoleRec) (p : Profile) (hp : p ∈ profiles)
    (h : ∀ r ∈ roles, r.user_id ≠ p.id) :
    joinProfile roles p ∈ (fetchUsers profiles roles).users ∧
    (joinProfile roles p).role = Role.user ∧
    fetchUsers
      [{ id := "u1", email := "a@x.com", full_name := none, created_at := "" }]
      [] =
      { users := [{ id := "u1", email := "a@x.com", full_name := none,
                    role := Role.user, created_at := "" }]
        hasAdmin := false } := by
  refine ⟨List.mem_map_of_mem _ hp, ?_, rfl⟩
  have hfind : roles.find? (fun role => decide (role.user_id = p.id)) = none := by
    rw [List.find?_eq_none]
    intro r hr
    simpa using h r hr
  simp [joinProfile, hfind]

/-- Witness for `fetchUsers_join_default` at the spec's example input. -/
theorem fetchUsers_join_default_witness :
    joinProfile []
      { id := "u1", email := "a@x.com", full_name := none, created_at := "" } ∈
      (fetchUsers
        [{ id := "u1", email := "a@x.com", full_name := none, created_at := "" }]
        []).users ∧
    (joinProfile []
      { id := "u1", email := "a@x.com", full_name := none, created_at := "" }).role
      = Role.user ∧
    fetchUsers
      [{ id := "u1", email := "a@x.com", full_name := none, created_at := "" }]
      [] =
      { users := [{ id := "u1", email := "a@x.com", full_name := none,
                    role := Role.user, created_at := "" }]
        hasAdmin := false } :=
  fetchUsers_join_default
    [{ id := "u1", email := "a@x.com", full_name := none, created_at := "" }]
    []
    { id := "u1", email := "a@x.com", full_name := none, created_at := "" }
    (List.mem_singleton_self _)
    (by intro r hr; cases hr)

/-- C2: `hasAdmin` is true exactly when some joined user holds role
`admin`, and the bootstrap card is rendered exactly when `hasAdmin` is
false, i.e. exactly when the admin set of the joined list is empty. -/
theorem bootstrapCard_shown_iff_no_admin (profiles : List Profile)
    (roles : List UserRoleRec) :
    ((fetchUsers profiles roles).hasAdmin = true ↔
      ∃ u ∈ (fetchUsers profiles roles).users, u.role = Role.admin) ∧
    (showBootstrapCard (fetchUsers profiles roles).hasAdmin = true ↔
      (fetchUsers profiles roles).hasAdmin = false) ∧
    (showBootstrapCard (fetchUsers profiles roles).hasAdmin = true ↔
      ¬ ∃ u ∈ (fetchUsers profiles roles).users, u.role = Role.admin) := by
  refine ⟨?_, ?_, ?_⟩
  · simp [fetchUsers, List.any_eq_true]
  · simp [showBootstrapCard]
  · simp [showBootstrapCard, fetchUsers, List.any_eq_false]

/-- When every `user_id` in the store is distinct (the externally enforced
"at most one role record per user" invariant), filtering for one user
yields nil or a singleton — exactly the cases `single()` tolerates. -/
theorem filter_user_id_nil_or_singleton (store : List UserRoleRec)
    (uid : String)
    (hdist : store.Pairwise fun a b => a.user_id ≠ b.user_id) :
    store.filter (fun r => decide (r.user_id = uid)) = [] ∨
    ∃ r, store.filter (fun r => decide (r.user_id = uid)) = [r] := by
  induction store with
  | nil => exact Or.inl rfl
  | cons a rest ih =>
    rcases List.pairwise_cons.mp hdist with ⟨ha, hrest⟩
    by_cases hcase : a.user_id = uid
    · right
      refine ⟨a, ?_⟩
      have hnil : rest.filter (fun r => decide (r.user_id = uid)) = [] := by
        rw [List.filter_eq_nil_iff]
        intro r hr
        simp only [decide_eq_true_eq]
        intro hru
        exact ha r hr (hcase.trans hru.symm)
      simp [List.filter_cons, hcase, hnil]
    · rw [List.filter_cons, if_neg (by simpa using hcase)]
      exact ih hrest

/-- C1: with an authenticated current user and the store invariant "at most
one role record per user", the bootstrap handler performs exactly the
spec's upsert — update the existing record to `admin` if present, else
insert `{user_id, role: 'admin'}` — reports success, and re-fetches the
full user list over the mutated store. -/
theorem promoteCurrentUserToAdmin_spec (profiles : List Profile)
    (store : List UserRoleRec) (uid : String)
    (hdist : store.Pairwise fun a b => a.user_id ≠ b.user_id) :
    promoteCurrentUserToAdmin profiles store (some uid) =
      { store := upsertAdminSpec store uid
        success := true
        refetched := some (fetchUsers profiles (upsertAdminSpec store uid)) } := by
  rcases filter_user_id_nil_or_singleton store uid hdist with hf | ⟨r, hf⟩
  · have hany : (store.any fun r => decide (r.user_id = uid)) = false := by
      rw [List.any_eq_false]
      intro x hx
      simpa using List.filter_eq_nil_iff.mp hf x hx
    simp [promoteCurrentUserToAdmin, hf, upsertAdminSpec, hany]
  · have hr : r ∈ store.filter fun r => decide (r.user_id = uid) := by
      rw [hf]
      exact List.mem_singleton_self r
    have hany : (store.any fun r => decide (r.user_id = uid)) = true := by
      rw [List.any_eq_true]
      exact ⟨r, (List.mem_filter.mp hr).1, (List.mem_filter.mp hr).2⟩
    simp [promoteCurrentUserToAdmin, hf, upsertAdminSpec, hany]

/-- Witness for `promoteCurrentUserToAdmin_spec`: user `u1` holds role
`user`, so the handler takes the update branch. -/
theorem promoteCurrentUserToAdmin_spec_witness :
    promoteCurrentUserToAdmin [] [{ user_id := "u1", role := Role.user }]
      (some "u1") =
      { store := upsertAdminSpec [{ user_id := "u1", role := Role.user }] "u1"
        success := true
        refetched := some (fetchUsers []
          (upsertAdminSpec [{ user_id := "u1", role := Role.user }] "u1")) } :=
  promoteCurrentUserToAdmin_spec [] [{ user_id := "u1", role := Role.user }]
    "u1" (by simp)

/-- C4: `promoteToAdmin` is idempotent on the role store, and after one
application every role record of the target user carries role `admin`. -/
theorem promoteToAdmin_idempotent (store : List UserRoleRec)
    (userId : String) :
    promoteToAdmin (promoteToAdmin store userId) userId
      = promoteToAdmin store userId ∧
    ∀ r ∈ promoteToAdmin store userId, r.user_id = userId →
      r.role = Role.admin := by
  constructor
  · unfold promoteToAdmin
    rw [List.map_map]
    apply List.map_congr_left
    intro r _
    by_cases h : r.user_id = userId
    · simp [Function.comp, h]
    · simp [Function.comp, h]
  · intro r hr hru
    rw [promoteToAdmin, List.mem_map] at hr
    obtain ⟨x, _, rfl⟩ := hr
    by_cases h : x.user_id = userId
    · simp [h]
    · rw [if_neg h] at hru ⊢
      exact absurd hru h

/-- C10: with an authenticated current user, the demote button is rendered
for a listed user exactly when that user holds role `admin` and their id
differs from the current user's; in particular it is never rendered for the
current user themself. -/
theorem showDemoteButton_never_self (currentUserId : String)
    (u : UserWithRole) :
    (showDemoteButton (some currentUserId) u = true ↔
      (u.role = Role.admin ∧ u.id ≠ currentUserId)) ∧
    (u.id = currentUserId →
      showDemoteButton (some currentUserId) u = false) := by
  constructor
  · simp [showDemoteButton]
  · intro h
    simp [showDemoteButton, h]

/-! ## Properties of the mechanic form -/

/-- C7: on a valid submit (non-empty name), create mode assigns the freshly
generated identifier — distinct from every existing mechanic id whenever
the generator delivers a fresh one — edit mode keeps the edited entity's
identifier, the callback receives exactly that data, the form is reset to
its default values and the dialog is closed. -/
theorem onSubmitForm_ids (values : Mechanic) (freshId : String)
    (existingIds : List String) (mechanic : Option Mechanic)
    (hname : values.name ≠ "") (hfresh : freshId ∉ existingIds) :
    (handleSubmitForm none freshId values).submitted
      = some { values with id := freshId } ∧
    (∀ m, (handleSubmitForm (some m) freshId values).submitted
      = some { values with id := m.id }) ∧
    (∀ d, (handleSubmitForm none freshId values).submitted = some d →
      d.id ∉ existingIds) ∧
    (handleSubmitForm mechanic freshId values).dialogOpen = false ∧
    (handleSubmitForm mechanic freshId values).formValues
      = defaultMechanicValues mechanic := by
  have hv : validateMechanicValues values = none := by
    simp [validateMechanicValues, hname]
  refine ⟨?_, ?_, ?_, ?_, ?_⟩
  · simp [handleSubmitForm, hv, onSubmitForm]
  · intro m
    simp [handleSubmitForm, hv, onSubmitForm]
  · intro d hd
    have heq : (handleSubmitForm none freshId values).submitted
        = some { values with id := freshId } := by
      simp [handleSubmitForm, hv, onSubmitForm]
    rw [heq] at hd
    injection hd with hd2
    subst hd2
    simpa using hfresh
  · simp [handleSubmitForm, hv]
  · simp [handleSubmitForm, hv]

/-- Witness for `onSubmitForm_ids`: a concrete valid submit in create mode
with one pre-existing mechanic id. -/
theorem onSubmitForm_ids_witness :
    (handleSubmitForm none "f1"
      { id := "", name := "Bob", specialization := "", phone := "" }).submitted
      = some { id := "f1", name := "Bob", specialization := "", phone := "" } ∧
    (∀ m, (handleSubmitForm (some m) "f1"
      { id := "", name := "Bob", specialization := "", phone := "" }).submitted
      = some { id := m.id, name := "Bob", specialization := "", phone := "" }) ∧
    (∀ d, (handleSubmitForm none "f1"
      { id := "", name := "Bob", specialization := "", phone := "" }).submitted
        = some d → d.id ∉ ["m1"]) ∧
    (handleSubmitForm none "f1"
      { id := "", name := "Bob", specialization := "", phone := "" }).dialogOpen
      = false ∧
    (handleSubmitForm none "f1"
      { id := "", name := "Bob", specialization := "", phone := "" }).formValues
      = defaultMechanicValues none :=
  onSubmitForm_ids
    { id := "", name := "Bob", specialization := "", phone := "" }
    "f1" ["m1"] none (by decide) (by decide)

/-- C8: submitting with an empty name is rejected — the validation message
is displayed, the callback is not invoked, the dialog stays open and the
fields keep their values — while any non-empty name with empty
specialization and phone passes validation and reaches the callback (name
is the only required field). -/
theorem mechanicForm_requires_name (mechanic : Option Mechanic)
    (freshId : String) (values : Mechanic) (hname : values.name = "") :
    (handleSubmitForm mechanic freshId values).submitted = none ∧
    (handleSubmitForm mechanic freshId values).nameError
      = some "Nome é obrigatório" ∧
    (handleSubmitForm mechanic freshId values).dialogOpen = true ∧
    (handleSubmitForm mechanic freshId values).formValues = values ∧
    ∀ n, n ≠ "" →
      (handleSubmitForm mechanic freshId
        { id := "", name := n, specialization := "", phone := "" }).submitted
        = some (onSubmitForm mechanic freshId
            { id := "", name := n, specialization := "", phone := "" }) := by
  have hv : validateMechanicValues values = some "Nome é obrigatório" := by
    simp [validateMechanicValues, hname]
  refine ⟨?_, ?_, ?_, ?_, ?_⟩
  · simp [handleSubmitForm, hv]
  · simp [handleSubmitForm, hv]
  · simp [handleSubmitForm, hv]
  · simp [handleSubmitForm, hv]
  · intro n hn
    simp [handleSubmitForm, validateMechanicValues, hn]

/-- Witness for `mechanicForm_requires_name`: submitting the blank form in
create mode. -/
theorem mechanicForm_requires_name_witness :
    (handleSubmitForm none "f2" blankMechanic).submitted = none ∧
    (handleSubmitForm none "f2" blankMechanic).nameError
      = some "Nome é obrigatório" ∧
    (handleSubmitForm none "f2" blankMechanic).dialogOpen = true ∧
    (handleSubmitForm none "f2" blankMechanic).formValues = blankMechanic ∧
    ∀ n, n ≠ "" →
      (handleSubmitForm none "f2"
        { id := "", name := n, specialization := "", phone := "" }).submitted
        = some (onSubmitForm none "f2"
            { id := "", name := n, specialization := "", phone := "" }) :=
  mechanicForm_requires_name none "f2" blankMechanic rfl
